import Mathlib

/-!
Verification of the document-graph assembly and coreference-linking core of
the AMR2KG repository (`classDocument.py`).

The embedding models:
  * RDF terms and graphs: an rdflib `Graph` is a *set* of
    (subject, predicate, object) triples (rdflib `Graph.add` of a present
    triple is a no-op), so a graph is a `Finset` of triples; a term is
    either a `URIRef` or a `Literal`.
  * `Document` with its mutable fields; methods become functions from a
    document (plus the external collaborators) to a new document or value.
  * The external AMR-to-RDF subprocess (`amr-ld/my_amr_to_rdf.py`) is an
    opaque collaborator `conv : String → String` (the text read from the
    child's stdout; `Popen.communicate` returns that text — possibly empty —
    regardless of the child's exit status, and `CalledProcessError` is never
    raised by `Popen`/`communicate`, so the `except` branch of
    `convert_amr_to_rdf` is unreachable).
  * rdflib's n3 parser is an opaque collaborator
    `parse : String → Except String Graph`; `Except.error e` models the
    parser raising an exception whose message is `e`.
  * Python string interpolation of the namespace (which may be `None`)
    is `pyStr : Option String → String` with `pyStr none = "None"`,
    mirroring `f"{None}" = "None"`.
-/

/-- An RDF term: rdflib `URIRef` or `Literal`. -/
inductive Term where
  | uri (s : String)
  | lit (s : String)
deriving DecidableEq

/-- An RDF (subject, predicate, object) triple. -/
abbrev Triple := Term × Term × Term

/-- An rdflib `Graph`: a set of triples (`Graph.add` is idempotent). -/
abbrev Graph := Finset Triple

/-- URI of `rdflib.namespace.RDF.type`. -/
def rdfTypeUri : String := "http://www.w3.org/1999/02/22-rdf-syntax-ns#type"

/-- URI of `rdflib.namespace.RDFS.label`. -/
def rdfsLabelUri : String := "http://www.w3.org/2000/01/rdf-schema#label"

/-- The coreference namespace `rdflib.Namespace("http://example.org/cluster/")`. -/
def corefNs : String := "http://example.org/cluster/"

/-- `coreference.Cluster` of `link_coreference_in_rdf`. -/
def clusterClassUri : String := corefNs ++ "Cluster"

/-- `coreference.sameAs` of `link_coreference_in_rdf`. -/
def sameAsUri : String := corefNs ++ "sameAs"

/-- Python f-string interpolation of a `str`-or-`None` value. -/
def pyStr : Option String → String
  | none => "None"
  | some s => s

/-- The `Document` class: `sentences` is a list of
(plain text, AMR, AMR with metadata) 3-tuples; `sentences_rdf` accumulates
the converter output per sentence; `coreference_clusters` is the dict
`relation_key ↦ list of (sentence_index, variable_name)`, modelled as an
association list in dict iteration order. -/
structure Document where
  title : String
  paragraph : String
  paragraph_amr : String
  sentences : List (String × String × String)
  sentences_rdf : List String
  coreference_clusters : List (String × List (Nat × String))
deriving DecidableEq

/-- `Document.convert_amr_to_rdf`: feeds `self.sentences[sentence_id][2]` to
the external converter and appends the converter's stdout text to
`self.sentences_rdf`. `conv` is the external collaborator. -/
def convert_amr_to_rdf (conv : String → String) (doc : Document) (sentence_id : Nat) : Document :=
  let sentence_content := (doc.sentences.getD sentence_id ("", "", "")).2.2
  { doc with sentences_rdf := doc.sentences_rdf ++ [conv sentence_content] }

/-- `Document.all_sentences_to_rdf`: calls `convert_amr_to_rdf` for each
index produced by `enumerate(self.sentences)`. -/
def all_sentences_to_rdf (conv : String → String) (doc : Document) : Document :=
  (List.range doc.sentences.length).foldl (fun d i => convert_amr_to_rdf conv d i) doc

/-- The diagnostic printed by `generate_document_rdf` when
`len(self.sentences_rdf) < 2` (the caught `ValueError`'s message,
formatted by `print(f"Error generating document RDF: ...")`). -/
def insufficientMsg : String :=
  "Error generating document RDF: Insufficient sentences to generate document RDF. Process all sentences first."

/-- The diagnostic printed by `generate_document_rdf` when parsing a
fragment raises an exception with message `e`. -/
def parseErrMsg (e : String) : String := "Error generating document RDF: " ++ e

/-- The parse loop of `generate_document_rdf`: the whole `for` loop sits
inside one `try`, so the first fragment that fails to parse jumps to the
`except` clause, which prints a diagnostic and falls through to
`return document_rdf_graph` with the triples accumulated so far.
Returns (graph, printed error messages). -/
def parseFold (parse : String → Except String Graph) :
    List String → Graph → Graph × List String
  | [], acc => (acc, [])
  | f :: fs, acc =>
    match parse f with
    | Except.ok g => parseFold parse fs (acc ∪ g)
    | Except.error e => (acc, [parseErrMsg e])

/-- `Document.generate_document_rdf`: raises (and catches, printing
`insufficientMsg`) when fewer than 2 entries are in `sentences_rdf`,
otherwise parses each fragment and unions it into the document graph.
The first component is the value `return`ed to the caller; the second
component is the list of diagnostics printed to stdout. -/
def generate_document_rdf (parse : String → Except String Graph)
    (sentences_rdf : List String) : Graph × List String :=
  if sentences_rdf.length < 2 then ((∅ : Graph), [insufficientMsg])
  else parseFold parse sentences_rdf ∅

/-- The characters Python's `\s` (and `str.strip`) treats as whitespace:
CPython's `Py_UNICODE_ISSPACE` set, which is what `re`'s Unicode `\s`
class tests - 0x09-0x0D, 0x1C-0x1F, 0x20, 0x85, 0xA0, 0x1680,
0x2000-0x200A, 0x2028, 0x2029, 0x202F, 0x205F, 0x3000. -/
def isPySpace (c : Char) : Bool :=
  c = ' ' || c = '\t' || c = '\n' || c = '\r' || c = '\x0b' || c = '\x0c'
    || c = '\x1c' || c = '\x1d' || c = '\x1e' || c = '\x1f'
    || c = '\x85' || c = '\xa0' || c = '\u1680'
    || c = '\u2000' || c = '\u2001' || c = '\u2002' || c = '\u2003' || c = '\u2004'
    || c = '\u2005' || c = '\u2006' || c = '\u2007' || c = '\u2008' || c = '\u2009'
    || c = '\u200a'
    || c = '\u2028' || c = '\u2029' || c = '\u202f' || c = '\u205f' || c = '\u3000'

/-- The literal part `# ::id ` of the pattern `# ::id (\S+?)\.` used by
`extract_article_namespace`. -/
def idMarker : List Char := String.toList "# ::id "

/-- Matching of the lazy group `(\S+?)` followed by `\.` once at least one
character `acc` has been consumed: the regex first tries to close the
group on a literal `.`, else extends it by one more non-whitespace
character, else fails at this start position. -/
def lazyGroupGo (acc : List Char) : List Char → Option (List Char)
  | [] => none
  | c :: rest =>
    if c = '.' then some acc.reverse
    else if isPySpace c then none
    else lazyGroupGo (c :: acc) rest

/-- Matching of `(\S+?)\.`: the group needs at least one character. -/
def lazyGroup : List Char → Option (List Char)
  | [] => none
  | c :: rest => if isPySpace c then none else lazyGroupGo [c] rest

/-- `re.search(r'# ::id (\S+?)\.', text)`: scan start positions left to
right; at each position require the literal marker and then the lazy
group; on failure resume one character further right. -/
def searchIdGo : List Char → Option (List Char)
  | [] => none
  | s@(_ :: rest) =>
    if idMarker.isPrefixOf s then
      match lazyGroup (s.drop idMarker.length) with
      | some g => some g
      | none => searchIdGo rest
    else searchIdGo rest

/-- One attempt of `re.search(r'# ::id (\S+?)\.', text)` at a fixed start
position: the suffix of the text starting there must begin with the
literal marker, followed by a successful lazy-group match; otherwise the
regex fails at this position and the search moves one character right.
`searchIdGo` returns the first position's successful `matchAt`. -/
def matchAt (l : List Char) : Option (List Char) :=
  if idMarker.isPrefixOf l then lazyGroup (l.drop idMarker.length) else none

/-- Python `str.strip()` on a character list. -/
def pyStrip (s : List Char) : List Char :=
  ((s.dropWhile isPySpace).reverse.dropWhile isPySpace).reverse

/-- `Document.extract_article_namespace` applied to the metadata string
`self.sentences[0][2]`: `re.search(r'# ::id (\S+?)\.', meta)`, returning
`group(1).strip()` on a match and `None` otherwise. -/
def extract_article_namespace (meta : String) : Option String :=
  match searchIdGo meta.toList with
  | some g => some (String.mk (pyStrip g))
  | none => none

/-- `Document.generate_clusters_uris`: maps every relation key of the
clusters dict to `base_uri + rel`. -/
def generate_clusters_uris (clusters : List (String × List (Nat × String))) :
    List (String × String) :=
  clusters.map (fun rc => (rc.1, "http://example.org/cluster/" ++ rc.1))

/-- Python dict subscript `relations_uris[relation]` on the association
list produced by `generate_clusters_uris` (the key is always present
because the loop iterates the same dict's items). -/
def lookupUri (uris : List (String × String)) (r : String) : String :=
  match uris.find? (fun p => p.1 == r) with
  | some p => p.2
  | none => ""

/-- The cluster node URI for a relation key (what
`generate_clusters_uris` assigns and the link loop looks up). -/
def cluster_uri (r : String) : String := "http://example.org/cluster/" ++ r

/-- The mention node URI
`f"http://amr.isi.edu/amr_data/{article_namespace}.sent{sentence_index + 1}#{variable_name}"`.
`article_namespace` may be `None` (Python interpolates `"None"`). -/
def mention_uri (ns : Option String) (sentence_index : Nat) (variable_name : String) : String :=
  "http://amr.isi.edu/amr_data/" ++ pyStr ns ++ ".sent" ++ toString (sentence_index + 1)
    ++ "#" ++ variable_name

/-- One iteration of the cluster loop of `link_coreference_in_rdf`:
for a cluster with `len(cluster) > 1` add the `rdf:type` triple, the
`rdfs:label` triple, and one `sameAs` edge per mention; otherwise do
nothing. -/
def linkCluster (ns : Option String) (uris : List (String × String))
    (g : Graph) (rc : String × List (Nat × String)) : Graph :=
  if 1 < rc.2.length then
    let ruri := lookupUri uris rc.1
    rc.2.foldl
      (fun g2 m =>
        insert ((Term.uri (mention_uri ns m.1 m.2), Term.uri sameAsUri, Term.uri ruri) : Triple) g2)
      (insert ((Term.uri ruri, Term.uri rdfsLabelUri, Term.lit ("Cluster " ++ rc.1)) : Triple)
        (insert ((Term.uri ruri, Term.uri rdfTypeUri, Term.uri clusterClassUri) : Triple) g))
  else g

/-- The coreference overlay of `link_coreference_in_rdf` (lines 250-267):
iterate the clusters dict and fold each cluster into the document graph. -/
def link_clusters (g : Graph) (clusters : List (String × List (Nat × String)))
    (article_namespace : Option String) : Graph :=
  clusters.foldl (linkCluster article_namespace (generate_clusters_uris clusters)) g

/-- `Document.link_coreference_in_rdf`: convert all sentences, generate the
document graph (keeping only the returned graph; diagnostics go to
stdout), extract the article namespace from the first sentence's
metadata, and overlay the coreference clusters. -/
def link_coreference_in_rdf (conv : String → String)
    (parse : String → Except String Graph) (doc : Document) : Graph :=
  let doc2 := all_sentences_to_rdf conv doc
  let g := (generate_document_rdf parse doc2.sentences_rdf).1
  let ns := extract_article_namespace ((doc2.sentences.getD 0 ("", "", "")).2.2)
  link_clusters g doc2.coreference_clusters ns

/-- The list of triples the link loop contributes for one cluster
(specification mirror of `linkCluster`, used to state membership). -/
def clusterTriples (ns : Option String) (rc : String × List (Nat × String)) : List Triple :=
  if 1 < rc.2.length then
    (Term.uri (cluster_uri rc.1), Term.uri rdfTypeUri, Term.uri clusterClassUri)
      :: (Term.uri (cluster_uri rc.1), Term.uri rdfsLabelUri, Term.lit ("Cluster " ++ rc.1))
      :: rc.2.map (fun m =>
          (Term.uri (mention_uri ns m.1 m.2), Term.uri sameAsUri, Term.uri (cluster_uri rc.1)))
  else []

/-- Union of the graphs of the successfully parsed fragments of a list
(all of which are assumed to parse). -/
def okUnion (parse : String → Except String Graph) : List String → Graph
  | [] => ∅
  | f :: fs =>
    (match parse f with
     | Except.ok g => g
     | Except.error _ => ∅) ∪ okUnion parse fs

-- Concrete collaborators and documents used by witnesses and
-- counterexamples.

/-- A fragment triple used in concrete examples. -/
def tripleOf (s : String) : Triple := (Term.uri s, Term.uri "p", Term.uri "o")

/-- A concrete parser: fragment "b" is malformed, every other fragment
yields the single triple `tripleOf f`. -/
def parseDemo : String → Except String Graph :=
  fun f => if f = "b" then Except.error "bad fragment" else Except.ok {tripleOf f}

/-- A concrete parser that accepts everything. -/
def parseOk : String → Except String Graph :=
  fun f => Except.ok {tripleOf f}

/-- A concrete external converter. -/
def convDemo : String → String := fun _ => "frag"

/-- A concrete one-sentence document with a two-mention cluster. -/
def docOne : Document :=
  { title := "t", paragraph := "p", paragraph_amr := "a"
    sentences := [("s", "(x / x)", "# ::id a1.sent1 (x / x)")]
    sentences_rdf := []
    coreference_clusters := [("rel", [(0, "x"), (0, "y")])] }

-- Helper lemmas on strings and on the link fold.

theorem string_data_inj {a b : String} (h : a.data = b.data) : a = b := by
  cases a; cases b; exact congrArg String.mk h

theorem str_append_left_cancel (p : String) {a b : String} (h : p ++ a = p ++ b) : a = b := by
  apply string_data_inj
  have h2 : (p ++ a).data = (p ++ b).data := congrArg String.data h
  rw [String.data_append, String.data_append] at h2
  exact List.append_cancel_left h2

theorem cluster_uri_inj {a b : String} (h : cluster_uri a = cluster_uri b) : a = b :=
  str_append_left_cancel _ h

theorem cluster_label_inj {a b : String}
    (h : ("Cluster " ++ a : String) = "Cluster " ++ b) : a = b :=
  str_append_left_cancel _ h

theorem mention_data_split (ns : Option String) (s : Nat) (v : String) :
    (mention_uri ns s v).data =
      ("http://amr.isi.edu/amr_data/" : String).data ++
        ((pyStr ns).data ++ ((".sent" : String).data ++
          ((toString (s + 1)).data ++ (("#" : String).data ++ v.data)))) := by
  simp [mention_uri, String.data_append, List.append_assoc]

theorem mention_ne_cluster (ns : Option String) (s : Nat) (v r : String) :
    mention_uri ns s v ≠ cluster_uri r := by
  intro h
  have h1 : (mention_uri ns s v).data = (cluster_uri r).data := congrArg String.data h
  rw [mention_data_split, cluster_uri, String.data_append] at h1
  have h2 := congrArg (List.take 8) h1
  rw [List.take_append_of_le_length (by decide), List.take_append_of_le_length (by decide)] at h2
  exact absurd h2 (by decide)

theorem rdfType_ne_sameAs : rdfTypeUri ≠ sameAsUri := by decide

theorem rdfsLabel_ne_sameAs : rdfsLabelUri ≠ sameAsUri := by decide

theorem rdfType_ne_rdfsLabel : rdfTypeUri ≠ rdfsLabelUri := by decide

theorem nodup_key_unique {β : Type} :
    ∀ (cl : List (String × β)), (cl.map Prod.fst).Nodup →
      ∀ {r : String} {a b : β}, (r, a) ∈ cl → (r, b) ∈ cl → a = b := by
  intro cl
  induction cl with
  | nil => intro _ r a b ha; simp at ha
  | cons c t ih =>
    intro hnd r a b ha hb
    simp only [List.map_cons, List.nodup_cons] at hnd
    rcases List.mem_cons.mp ha with ha1 | ha1 <;> rcases List.mem_cons.mp hb with hb1 | hb1
    · exact congrArg Prod.snd (ha1.trans hb1.symm)
    · exfalso
      apply hnd.1
      rw [← ha1]
      exact List.mem_map.mpr ⟨(r, b), hb1, rfl⟩
    · exfalso
      apply hnd.1
      rw [← hb1]
      exact List.mem_map.mpr ⟨(r, a), ha1, rfl⟩
    · exact ih hnd.2 ha1 hb1

theorem lookupUri_cons (k u : String) (rest : List (String × String)) (r : String) :
    lookupUri ((k, u) :: rest) r = if k = r then u else lookupUri rest r := by
  by_cases h : k = r
  · have hb : (k == r) = true := beq_iff_eq.mpr h
    simp [lookupUri, List.find?, hb, h]
  · have hb : (k == r) = false := beq_eq_false_iff_ne.mpr h
    simp [lookupUri, List.find?, hb, h]

theorem lookupUri_generate (cl : List (String × List (Nat × String))) :
    ∀ rc ∈ cl, lookupUri (generate_clusters_uris cl) rc.1 = cluster_uri rc.1 := by
  induction cl with
  | nil => intro rc h; simp at h
  | cons c t ih =>
    intro rc hmem
    simp only [generate_clusters_uris, List.map_cons] at *
    rw [lookupUri_cons]
    by_cases he : c.1 = rc.1
    · simp [he, cluster_uri]
    · rcases List.mem_cons.mp hmem with h1 | h1
      · exact absurd (congrArg Prod.fst h1.symm) he
      · simp only [he, if_false]
        exact ih rc h1

theorem foldl_insert_eq_union (mt : Nat × String → Triple) :
    ∀ (ms : List (Nat × String)) (g : Graph),
      ms.foldl (fun g2 m => insert (mt m) g2) g = g ∪ (ms.map mt).toFinset := by
  intro ms
  induction ms with
  | nil => intro g; simp
  | cons m t ih =>
    intro g
    simp only [List.foldl_cons, List.map_cons, List.toFinset_cons]
    rw [ih, Finset.insert_union, Finset.union_insert]

theorem linkCluster_eq_union (ns : Option String) (uris : List (String × String))
    (rc : String × List (Nat × String))
    (hlook : lookupUri uris rc.1 = cluster_uri rc.1) (g : Graph) :
    linkCluster ns uris g rc = g ∪ (clusterTriples ns rc).toFinset := by
  by_cases hlen : 1 < rc.2.length
  · simp only [linkCluster, clusterTriples, hlen, if_true, hlook]
    rw [foldl_insert_eq_union
      (fun m => (Term.uri (mention_uri ns m.1 m.2), Term.uri sameAsUri,
        Term.uri (cluster_uri rc.1)))]
    simp only [List.toFinset_cons]
    ext x
    simp only [Finset.mem_union, Finset.mem_insert]
    tauto
  · simp [linkCluster, clusterTriples, hlen]

theorem foldl_linkCluster_eq (ns : Option String) (uris : List (String × String)) :
    ∀ (l : List (String × List (Nat × String))) (g : Graph),
      (∀ rc ∈ l, lookupUri uris rc.1 = cluster_uri rc.1) →
      l.foldl (linkCluster ns uris) g = g ∪ (l.flatMap (clusterTriples ns)).toFinset := by
  intro l
  induction l with
  | nil => intro g _; simp
  | cons c t ih =>
    intro g hl
    simp only [List.foldl_cons, List.flatMap_cons, List.toFinset_append]
    rw [linkCluster_eq_union ns uris c (hl c (List.mem_cons_self c t)) g,
      ih _ (fun rc hrc => hl rc (List.mem_cons_of_mem c hrc)), Finset.union_assoc]

theorem link_clusters_eq_union (g : Graph) (cl : List (String × List (Nat × String)))
    (ns : Option String) :
    link_clusters g cl ns = g ∪ (cl.flatMap (clusterTriples ns)).toFinset :=
  foldl_linkCluster_eq ns _ cl g (lookupUri_generate cl)

theorem mem_link_clusters {t : Triple} {g : Graph}
    {cl : List (String × List (Nat × String))} {ns : Option String} :
    t ∈ link_clusters g cl ns ↔ t ∈ g ∨ ∃ rc ∈ cl, t ∈ clusterTriples ns rc := by
  rw [link_clusters_eq_union]
  simp [List.mem_flatMap]

theorem mem_clusterTriples {t : Triple} {ns : Option String}
    {rc : String × List (Nat × String)} :
    t ∈ clusterTriples ns rc ↔
      1 < rc.2.length ∧
        (t = (Term.uri (cluster_uri rc.1), Term.uri rdfTypeUri, Term.uri clusterClassUri)
         ∨ t = (Term.uri (cluster_uri rc.1), Term.uri rdfsLabelUri, Term.lit ("Cluster " ++ rc.1))
         ∨ ∃ m ∈ rc.2,
             t = (Term.uri (mention_uri ns m.1 m.2), Term.uri sameAsUri,
               Term.uri (cluster_uri rc.1))) := by
  unfold clusterTriples
  by_cases hlen : 1 < rc.2.length
  · simp only [hlen, if_true, true_and, List.mem_cons, List.mem_map]
    constructor
    · rintro (h | h | ⟨m, hm, he⟩)
      · exact Or.inl h
      · exact Or.inr (Or.inl h)
      · exact Or.inr (Or.inr ⟨m, hm, he.symm⟩)
    · rintro (h | h | ⟨m, hm, he⟩)
      · exact Or.inl h
      · exact Or.inr (Or.inl h)
      · exact Or.inr (Or.inr ⟨m, hm, he.symm⟩)
  · simp [hlen]

theorem parseFold_ok (parse : String → Except String Graph) :
    ∀ (l : List String) (acc : Graph),
      (∀ f ∈ l, ∃ g, parse f = Except.ok g) →
      parseFold parse l acc = (acc ∪ okUnion parse l, []) := by
  intro l
  induction l with
  | nil => intro acc _; simp [parseFold, okUnion]
  | cons f fs ih =>
    intro acc hok
    obtain ⟨g, hg⟩ := hok f (List.mem_cons_self f fs)
    simp only [parseFold, okUnion, hg]
    rw [ih _ (fun x hx => hok x (List.mem_cons_of_mem f hx)), Finset.union_assoc]

theorem parseFold_append_ok (parse : String → Except String Graph) (l₂ : List String) :
    ∀ (l₁ : List String) (acc : Graph),
      (∀ f ∈ l₁, ∃ g, parse f = Except.ok g) →
      parseFold parse (l₁ ++ l₂) acc = parseFold parse l₂ (acc ∪ okUnion parse l₁) := by
  intro l₁
  induction l₁ with
  | nil => intro acc _; simp [okUnion]
  | cons f fs ih =>
    intro acc hok
    obtain ⟨g, hg⟩ := hok f (List.mem_cons_self f fs)
    simp only [List.cons_append, parseFold, okUnion, hg, List.append_eq]
    rw [ih _ (fun x hx => hok x (List.mem_cons_of_mem f hx)), Finset.union_assoc]

theorem parseFold_err (parse : String → Except String Graph) (bad c : String)
    (hbad : parse bad = Except.error c) (post : List String) :
    ∀ (pre : List String) (acc : Graph),
      (∀ f ∈ pre, ∃ g, parse f = Except.ok g) →
      parseFold parse (pre ++ bad :: post) acc
        = (acc ∪ okUnion parse pre, [parseErrMsg c]) := by
  intro pre
  induction pre with
  | nil => intro acc _; simp [parseFold, okUnion, hbad]
  | cons f fs ih =>
    intro acc hok
    obtain ⟨g, hg⟩ := hok f (List.mem_cons_self f fs)
    simp only [List.cons_append, parseFold, okUnion, hg, List.append_eq]
    rw [ih _ (fun x hx => hok x (List.mem_cons_of_mem f hx)), Finset.union_assoc]

theorem parse_all_or_first_err (parse : String → Except String Graph) :
    ∀ (l : List String),
      (∀ f ∈ l, ∃ g, parse f = Except.ok g) ∨
      ∃ pre bad post c, l = pre ++ bad :: post ∧
        (∀ f ∈ pre, ∃ g, parse f = Except.ok g) ∧ parse bad = Except.error c := by
  intro l
  induction l with
  | nil =>
    left
    intro f hf
    simp at hf
  | cons f fs ih =>
    cases hp : parse f with
    | error c =>
      right
      exact ⟨[], f, fs, c, rfl, by simp, hp⟩
    | ok g =>
      rcases ih with hall | ⟨pre, bad, post, c, heq, hok, hbad⟩
      · left
        intro x hx
        rcases List.mem_cons.mp hx with h1 | h1
        · exact ⟨g, by rw [h1]; exact hp⟩
        · exact hall x h1
      · right
        refine ⟨f :: pre, bad, post, c, by rw [heq, List.cons_append], ?_, hbad⟩
        intro x hx
        rcases List.mem_cons.mp hx with h1 | h1
        · exact ⟨g, by rw [h1]; exact hp⟩
        · exact hok x h1

-- Lemmas about the identifier-extraction search.

theorem isPrefixOf_append_self : ∀ (p t : List Char), p.isPrefixOf (p ++ t) = true := by
  intro p
  induction p with
  | nil => intro t; simp [List.isPrefixOf]
  | cons c cs ih => intro t; simp [List.isPrefixOf, ih]

theorem searchIdGo_cons (c : Char) (rest : List Char) :
    searchIdGo (c :: rest)
      = if idMarker.isPrefixOf (c :: rest) then
          (match lazyGroup ((c :: rest).drop idMarker.length) with
           | some g => some g
           | none => searchIdGo rest)
        else searchIdGo rest := by
  simp only [searchIdGo]

theorem matchAt_nil : matchAt [] = none := by decide

theorem searchIdGo_cons_matchAt (c : Char) (rest : List Char) :
    searchIdGo (c :: rest)
      = match matchAt (c :: rest) with
        | some g => some g
        | none => searchIdGo rest := by
  rw [searchIdGo_cons]
  unfold matchAt
  cases hp : idMarker.isPrefixOf (c :: rest) with
  | true => simp [hp]
  | false => simp [hp]

theorem searchIdGo_skip_noMatch : ∀ (pre l : List Char),
    (∀ i, i < pre.length → matchAt ((pre ++ l).drop i) = none) →
    searchIdGo (pre ++ l) = searchIdGo l := by
  intro pre
  induction pre with
  | nil => intro l _; rfl
  | cons c cs ih =>
    intro l h
    have h0 := h 0 (by simp)
    rw [List.drop_zero, List.cons_append] at h0
    rw [List.cons_append, searchIdGo_cons_matchAt, h0]
    exact ih l (fun i hi => by
      have hd := h (i + 1) (by simpa using Nat.succ_lt_succ hi)
      rwa [List.cons_append, List.drop_succ_cons] at hd)

theorem lazyGroupGo_closes (rest : List Char) :
    ∀ (ns acc : List Char), (∀ c ∈ ns, isPySpace c = false ∧ c ≠ '.') →
      lazyGroupGo acc (ns ++ '.' :: rest) = some (acc.reverse ++ ns) := by
  intro ns
  induction ns with
  | nil => intro acc _; simp [lazyGroupGo]
  | cons c cs ih =>
    intro acc hc
    obtain ⟨hsp, hdot⟩ := hc c (List.mem_cons_self c cs)
    simp only [List.cons_append, lazyGroupGo, hdot, hsp, Bool.false_eq_true, if_false,
      List.append_eq]
    rw [ih (c :: acc) (fun x hx => hc x (List.mem_cons_of_mem c hx))]
    simp [List.reverse_cons, List.append_assoc]

theorem lazyGroup_at (ns rest : List Char) (hne : ns ≠ [])
    (hc : ∀ c ∈ ns, isPySpace c = false ∧ c ≠ '.') :
    lazyGroup (ns ++ '.' :: rest) = some ns := by
  cases ns with
  | nil => exact absurd rfl hne
  | cons c cs =>
    obtain ⟨hsp, _⟩ := hc c (List.mem_cons_self c cs)
    simp only [List.cons_append, lazyGroup, hsp, Bool.false_eq_true, if_false]
    rw [lazyGroupGo_closes rest cs [c] (fun x hx => hc x (List.mem_cons_of_mem c hx))]
    simp

theorem searchIdGo_marker_hit (tail g0 : List Char) (h : lazyGroup tail = some g0) :
    searchIdGo (idMarker ++ tail) = some g0 := by
  have hcons : idMarker ++ tail = '#' :: (String.toList " ::id " ++ tail) := rfl
  rw [hcons, searchIdGo_cons, ← hcons, List.drop_left, h, isPrefixOf_append_self]
  simp

theorem dropWhile_all_false {p : Char → Bool} :
    ∀ {l : List Char}, (∀ c ∈ l, p c = false) → l.dropWhile p = l := by
  intro l h
  cases l with
  | nil => rfl
  | cons c cs => simp [List.dropWhile, h c (List.mem_cons_self c cs)]

theorem pyStrip_id {l : List Char} (h : ∀ c ∈ l, isPySpace c = false) : pyStrip l = l := by
  unfold pyStrip
  rw [dropWhile_all_false h,
    dropWhile_all_false (fun c hc => h c (List.mem_reverse.mp hc)), List.reverse_reverse]

theorem searchIdGo_none_matchAt : ∀ (l : List Char),
    (∀ i, matchAt (l.drop i) = none) → searchIdGo l = none := by
  intro l
  induction l with
  | nil => intro _; rfl
  | cons c cs ih =>
    intro h
    have h0 := h 0
    rw [List.drop_zero] at h0
    rw [searchIdGo_cons_matchAt, h0]
    exact ih (fun i => by have hi := h (i + 1); rwa [List.drop_succ_cons] at hi)

theorem mention_uri_none (s : Nat) (v : String) :
    mention_uri none s v
      = "http://amr.isi.edu/amr_data/None.sent" ++ toString (s + 1) ++ "#" ++ v := by
  unfold mention_uri pyStr
  rw [show ("http://amr.isi.edu/amr_data/" ++ "None" : String)
      = "http://amr.isi.edu/amr_data/None" from by decide,
    show ("http://amr.isi.edu/amr_data/None" ++ ".sent" : String)
      = "http://amr.isi.edu/amr_data/None.sent" from by decide]

theorem foldl_convert_rdf (conv : String → String) :
    ∀ (l : List Nat) (d : Document),
      (l.foldl (fun d2 i => convert_amr_to_rdf conv d2 i) d).sentences = d.sentences
      ∧ (l.foldl (fun d2 i => convert_amr_to_rdf conv d2 i) d).sentences_rdf
          = d.sentences_rdf ++ l.map (fun i => conv ((d.sentences.getD i ("", "", "")).2.2)) := by
  intro l
  induction l with
  | nil => intro d; simp
  | cons i t ih =>
    intro d
    simp only [List.foldl_cons, List.map_cons]
    refine ⟨(ih _).1, ?_⟩
    rw [(ih _).2]
    simp [convert_amr_to_rdf, List.append_assoc]

theorem getD_map_range {α : Type} (f : Nat → α) (dflt : α) (n i : Nat) (h : i < n) :
    ((List.range n).map f).getD i dflt = f i := by
  have hlen : i < ((List.range n).map f).length := by simpa using h
  rw [List.getD_eq_getElem _ _ hlen, List.getElem_map]
  rw [List.getElem_range]

-- Claim theorems.

/-- C3 counterexample: with a single fragment, `generate_document_rdf` does
not return an error condition to its caller — it returns an ordinary
(empty) graph, the `InsufficientFragments` condition surfacing only as a
printed diagnostic — and the downstream caller `link_coreference_in_rdf`
silently keeps going, producing a nonempty linked graph from the empty
document graph. -/
theorem C3_counterexample :
    (generate_document_rdf parseOk ["frag"]).1 = (∅ : Graph)
    ∧ (generate_document_rdf parseOk ["frag"]).2 = [insufficientMsg]
    ∧ link_coreference_in_rdf convDemo parseOk docOne ≠ (∅ : Graph) := by decide

/-- C3 (amended): with fewer than 2 fragments, document-graph assembly
raises the insufficient-sentences `ValueError` internally, catches it,
prints the diagnostic, merges no fragment, and returns an empty graph to
the caller (an ordinary graph value, not an error value). -/
theorem C3_insufficient_fragments (parse : String → Except String Graph)
    (frs : List String) (h : frs.length < 2) :
    generate_document_rdf parse frs = ((∅ : Graph), [insufficientMsg]) := by
  unfold generate_document_rdf
  rw [if_pos h]

/-- C3 witness: concrete instance of the amended theorem. -/
theorem C3_witness :
    generate_document_rdf parseOk [] = ((∅ : Graph), [insufficientMsg]) :=
  C3_insufficient_fragments parseOk [] (by decide)

/-- C4 counterexample: fragment "b" fails to parse, and fragment "c" -
which itself parses fine - is nevertheless excluded from the merged graph
because the single `try` around the whole loop aborts on the first parse
error. The claim that fragments after a bad one are still folded in is
false. -/
theorem C4_counterexample :
    (generate_document_rdf parseDemo ["a", "b", "c"]).1 = {tripleOf "a"}
    ∧ tripleOf "c" ∉ (generate_document_rdf parseDemo ["a", "b", "c"]).1
    ∧ parseDemo "c" = Except.ok {tripleOf "c"} :=
  ⟨by decide, by decide, rfl⟩

/-- C4 (amended): during assembly, fragments before the first failing
fragment are parsed and folded into the merged graph; the first parse
failure is caught, its diagnostic recorded, and it aborts parsing of the
failing fragment and of every fragment after it; the partial graph is
returned. -/
theorem C4_first_parse_error_aborts_rest (parse : String → Except String Graph)
    (pre post : List String) (bad c : String)
    (h2 : 2 ≤ (pre ++ bad :: post).length)
    (hok : ∀ f ∈ pre, ∃ g, parse f = Except.ok g)
    (hbad : parse bad = Except.error c) :
    generate_document_rdf parse (pre ++ bad :: post)
      = (okUnion parse pre, [parseErrMsg c]) := by
  unfold generate_document_rdf
  rw [if_neg (by omega), parseFold_err parse bad c hbad post pre ∅ hok, Finset.empty_union]

/-- C4 witness: concrete instance of the amended theorem. -/
theorem C4_witness :
    generate_document_rdf parseDemo (["a"] ++ "b" :: ["c"])
      = (okUnion parseDemo ["a"], [parseErrMsg "bad fragment"]) :=
  C4_first_parse_error_aborts_rest parseDemo ["a"] ["c"] "b" "bad fragment" (by decide)
    (by
      intro f hf
      simp only [List.mem_singleton] at hf
      exact ⟨{tripleOf "a"}, by subst hf; rfl⟩)
    rfl

/-- C6: namespace extraction. If the metadata decomposes as
`<pre># ::id <ns>.<rest>` where the regex `# ::id (\S+?)\.` matches at no
start position inside `<pre>` (first match wins - `<pre>` may freely
contain `#` and even the marker itself, as long as no full match starts
there) and `<ns>` is a nonempty token of non-whitespace, non-dot
characters, extraction returns exactly `<ns>`, the text before the first
`.` after the id marker; the concrete example
`# ::id a1.sent1 ::snt "..."` yields "a1"; and every metadata string on
which the pattern matches at no position - including strings that do
contain `# ::id ` but with no dot completing the pattern - yields `None`
(the `NamespaceNotFound` condition). -/
theorem C6_extract_article_namespace :
    (∀ (pre ns rest : List Char),
        (∀ i, i < pre.length →
          matchAt ((pre ++ (idMarker ++ (ns ++ '.' :: rest))).drop i) = none) →
        ns ≠ [] →
        (∀ c ∈ ns, isPySpace c = false ∧ c ≠ '.') →
        extract_article_namespace (String.mk (pre ++ (idMarker ++ (ns ++ '.' :: rest))))
          = some (String.mk ns))
    ∧ extract_article_namespace "# ::id a1.sent1 ::snt \"m\"" = some "a1"
    ∧ (∀ (meta : String),
        (∀ i, i < meta.toList.length → matchAt (meta.toList.drop i) = none) →
        extract_article_namespace meta = none) := by
  refine ⟨?_, by decide, ?_⟩
  · intro pre ns rest hfirst hne hc
    unfold extract_article_namespace
    have htl : (String.mk (pre ++ (idMarker ++ (ns ++ '.' :: rest)))).toList
        = pre ++ (idMarker ++ (ns ++ '.' :: rest)) := rfl
    rw [htl, searchIdGo_skip_noMatch pre _ hfirst,
      searchIdGo_marker_hit _ ns (lazyGroup_at ns rest hne hc)]
    show some (String.mk (pyStrip ns)) = some (String.mk ns)
    rw [pyStrip_id (fun c hcm => (hc c hcm).1)]
  · intro meta h
    have hs : searchIdGo meta.toList = none := by
      apply searchIdGo_none_matchAt
      intro i
      by_cases hi : i < meta.toList.length
      · exact h i hi
      · rw [List.drop_eq_nil_of_le (le_of_not_lt hi)]
        exact matchAt_nil
    unfold extract_article_namespace
    rw [hs]

/-- C6 witness: concrete instances of both quantified parts - a metadata
string whose `# ::snt` field precedes the id field (so `#` occurs before
the marker but no earlier match exists), and a metadata string that
contains the marker but no dot, which Python maps to `None`. -/
theorem C6_witness :
    extract_article_namespace
        (String.mk (String.toList "# ::snt hi\n"
          ++ (idMarker ++ (['a', '1'] ++ '.' :: String.toList "sent1"))))
      = some (String.mk ['a', '1'])
    ∧ extract_article_namespace "# ::id abc" = none :=
  ⟨C6_extract_article_namespace.1 (String.toList "# ::snt hi\n") ['a', '1']
      (String.toList "sent1") (by decide) (by decide) (by decide),
    C6_extract_article_namespace.2.2 "# ::id abc" (by decide)⟩

/-- C7: the coreference-linking overlay is idempotent - linking twice on
the same (document graph, clusters, namespace) yields exactly the triple
set of linking once; graph addition is set insertion (rdflib `Graph.add`
of a present triple is a no-op), so no duplicate edges arise and no error
occurs. -/
theorem C7_link_idempotent (g : Graph) (cl : List (String × List (Nat × String)))
    (ns : Option String) :
    link_clusters (link_clusters g cl ns) cl ns = link_clusters g cl ns := by
  rw [link_clusters_eq_union, link_clusters_eq_union, Finset.union_assoc, Finset.union_self]

/-- C8: re-running document-graph assembly is deterministic (same fragment
sequence, same resulting graph-and-diagnostics pair), and merging is
idempotent per fragment: reprocessing the same fragment set (the sequence
concatenated with itself) yields exactly the same triple set, with no
(subject, predicate, object) triple duplicated, because the merge is a
set union. -/
theorem C8_assemble_rerun (parse : String → Except String Graph) (frs : List String) :
    generate_document_rdf parse frs = generate_document_rdf parse frs
    ∧ (2 ≤ frs.length →
        generate_document_rdf parse (frs ++ frs) = generate_document_rdf parse frs) := by
  refine ⟨rfl, fun h2 => ?_⟩
  unfold generate_document_rdf
  rw [if_neg (by rw [List.length_append]; omega), if_neg (by omega)]
  rcases parse_all_or_first_err parse frs with hall | ⟨pre, bad, post, c, heq, hok, hbad⟩
  · rw [parseFold_ok parse frs ∅ hall, parseFold_append_ok parse frs frs ∅ hall,
      parseFold_ok parse frs _ hall, Finset.union_assoc, Finset.union_self]
  · subst heq
    have heq2 : (pre ++ bad :: post) ++ (pre ++ bad :: post)
        = pre ++ bad :: (post ++ (pre ++ bad :: post)) := by
      rw [List.append_assoc, List.cons_append]
    rw [heq2, parseFold_err parse bad c hbad (post ++ (pre ++ bad :: post)) pre ∅ hok,
      parseFold_err parse bad c hbad post pre ∅ hok]

/-- C8 witness: concrete instance with the hypothesis discharged. -/
theorem C8_witness :
    generate_document_rdf parseOk (["a", "c"] ++ ["a", "c"])
      = generate_document_rdf parseOk ["a", "c"] :=
  (C8_assemble_rerun parseOk ["a", "c"]).2 (by decide)

/-- C9 counterexample: the per-sentence conversion call mutates the
Document - it appends the converter output to `sentences_rdf` - so the
claim that no field of the Document is mutated by the conversion call is
false. -/
theorem C9_counterexample :
    (convert_amr_to_rdf convDemo docOne 0).sentences_rdf ≠ docOne.sentences_rdf := by decide

/-- C9 (amended): the conversion call invokes the external converter and
appends its output to the Document's `sentences_rdf` list; every other
field (title, paragraph, paragraph_amr, sentences, coreference_clusters)
is left unchanged. -/
theorem C9_convert_appends_only (conv : String → String) (doc : Document) (i : Nat) :
    (convert_amr_to_rdf conv doc i).title = doc.title
    ∧ (convert_amr_to_rdf conv doc i).paragraph = doc.paragraph
    ∧ (convert_amr_to_rdf conv doc i).paragraph_amr = doc.paragraph_amr
    ∧ (convert_amr_to_rdf conv doc i).sentences = doc.sentences
    ∧ (convert_amr_to_rdf conv doc i).coreference_clusters = doc.coreference_clusters
    ∧ (convert_amr_to_rdf conv doc i).sentences_rdf
        = doc.sentences_rdf ++ [conv ((doc.sentences.getD i ("", "", "")).2.2)] :=
  ⟨rfl, rfl, rfl, rfl, rfl, rfl⟩

/-- C10: every conversion call appends exactly one entry to
`sentences_rdf` (the converter output is appended unconditionally, even
when it is empty), so converting all sentences of a fresh Document yields
one entry per sentence, with entry `i` holding the converter output for
sentence `i`. -/
theorem C10_positional_alignment (conv : String → String) (doc : Document)
    (hfresh : doc.sentences_rdf = []) :
    ((all_sentences_to_rdf conv doc).sentences_rdf.length = doc.sentences.length
      ∧ ∀ i, i < doc.sentences.length →
          (all_sentences_to_rdf conv doc).sentences_rdf.getD i ""
            = conv ((doc.sentences.getD i ("", "", "")).2.2))
    ∧ ∀ (d : Document) (j : Nat),
        (convert_amr_to_rdf conv d j).sentences_rdf.length = d.sentences_rdf.length + 1 := by
  have hrdf : (all_sentences_to_rdf conv doc).sentences_rdf
      = (List.range doc.sentences.length).map
          (fun i => conv ((doc.sentences.getD i ("", "", "")).2.2)) := by
    unfold all_sentences_to_rdf
    rw [(foldl_convert_rdf conv (List.range doc.sentences.length) doc).2, hfresh,
      List.nil_append]
  refine ⟨⟨?_, ?_⟩, ?_⟩
  · rw [hrdf]
    simp
  · intro i hi
    rw [hrdf, getD_map_range _ _ _ i hi]
  · intro d j
    simp [convert_amr_to_rdf]

/-- C2: every mention linked by the coreference overlay gets a node URI
built exactly as
`http://amr.isi.edu/amr_data/<namespace>.sent<sentence_index+1>#<variable_name>`
from the 0-based internal sentence index; concretely, namespace "a1",
internal index 2 and variable "x3" give exactly
`http://amr.isi.edu/amr_data/a1.sent3#x3`. -/
theorem C2_mention_uri_scheme (g : Graph) (cl : List (String × List (Nat × String)))
    (ns : Option String) (r : String) (ms : List (Nat × String)) (s : Nat) (v : String)
    (hmem : (r, ms) ∈ cl) (hlen : 1 < ms.length) (hm : (s, v) ∈ ms) :
    (Term.uri ("http://amr.isi.edu/amr_data/" ++ pyStr ns ++ ".sent" ++ toString (s + 1)
        ++ "#" ++ v),
      Term.uri sameAsUri, Term.uri (cluster_uri r)) ∈ link_clusters g cl ns
    ∧ mention_uri (some "a1") 2 "x3" = "http://amr.isi.edu/amr_data/a1.sent3#x3" := by
  refine ⟨?_, by decide⟩
  rw [mem_link_clusters]
  right
  refine ⟨(r, ms), hmem, ?_⟩
  rw [mem_clusterTriples]
  exact ⟨hlen, Or.inr (Or.inr ⟨(s, v), hm, rfl⟩)⟩

/-- C2 witness: concrete instance. -/
theorem C2_witness :
    (Term.uri ("http://amr.isi.edu/amr_data/" ++ pyStr (some "a1") ++ ".sent"
        ++ toString (2 + 1) ++ "#" ++ "x3"),
      Term.uri sameAsUri, Term.uri (cluster_uri "r"))
        ∈ link_clusters (∅ : Graph) [("r", [(2, "x3"), (0, "b")])] (some "a1")
    ∧ mention_uri (some "a1") 2 "x3" = "http://amr.isi.edu/amr_data/a1.sent3#x3" :=
  C2_mention_uri_scheme ∅ [("r", [(2, "x3"), (0, "b")])] (some "a1") "r"
    [(2, "x3"), (0, "b")] 2 "x3" (by decide) (by decide) (by decide)

/-- C5 counterexample: a cluster with no mentions gets no cluster node at
all - the `if len(cluster) > 1` guard skips node creation entirely - so
the claim that a cluster missing mentions still gets its cluster node
created is false. -/
theorem C5_counterexample :
    (Term.uri (cluster_uri "r"), Term.uri rdfTypeUri, Term.uri clusterClassUri)
      ∉ link_clusters (∅ : Graph) [("r", ([] : List (Nat × String)))] (some "a1") := by
  decide

/-- C5 (amended): the coreference overlay never fails on any cluster: a
cluster with at least 2 mentions gets its cluster node created even when
its mentions reference variables absent from the document graph, but a
cluster with fewer than 2 mentions is skipped entirely - no cluster node
is created for it; and a missing (None) namespace is not fatal either -
linking proceeds, interpolating the string "None" into the mention
URIs. -/
theorem C5_linker_totality :
    (∀ (g : Graph) (cl : List (String × List (Nat × String))) (ns : Option String)
        (r : String) (ms : List (Nat × String)), (r, ms) ∈ cl → 1 < ms.length →
        (Term.uri (cluster_uri r), Term.uri rdfTypeUri, Term.uri clusterClassUri)
            ∈ link_clusters g cl ns
        ∧ (Term.uri (cluster_uri r), Term.uri rdfsLabelUri, Term.lit ("Cluster " ++ r))
            ∈ link_clusters g cl ns)
    ∧ (∀ (g : Graph) (cl : List (String × List (Nat × String))) (ns : Option String)
        (r : String) (ms : List (Nat × String)), (r, ms) ∈ cl → ms.length < 2 →
        (cl.map Prod.fst).Nodup →
        (Term.uri (cluster_uri r), Term.uri rdfTypeUri, Term.uri clusterClassUri) ∉ g →
        (Term.uri (cluster_uri r), Term.uri rdfTypeUri, Term.uri clusterClassUri)
          ∉ link_clusters g cl ns)
    ∧ (∀ (g : Graph) (cl : List (String × List (Nat × String)))
        (r : String) (ms : List (Nat × String)) (s : Nat) (v : String),
        (r, ms) ∈ cl → 1 < ms.length → (s, v) ∈ ms →
        (Term.uri ("http://amr.isi.edu/amr_data/None.sent" ++ toString (s + 1) ++ "#" ++ v),
          Term.uri sameAsUri, Term.uri (cluster_uri r)) ∈ link_clusters g cl none) := by
  refine ⟨?_, ?_, ?_⟩
  · intro g cl ns r ms hmem hlen
    constructor
    · exact mem_link_clusters.mpr
        (Or.inr ⟨(r, ms), hmem, mem_clusterTriples.mpr ⟨hlen, Or.inl rfl⟩⟩)
    · exact mem_link_clusters.mpr
        (Or.inr ⟨(r, ms), hmem, mem_clusterTriples.mpr ⟨hlen, Or.inr (Or.inl rfl)⟩⟩)
  · intro g cl ns r ms hmem hsmall hnd hg habs
    rcases mem_link_clusters.mp habs with hin | ⟨rc, hrc, hct⟩
    · exact hg hin
    · rw [mem_clusterTriples] at hct
      obtain ⟨hl2, hcase⟩ := hct
      rcases hcase with he | he | ⟨m, hm, he⟩
      · simp only [Prod.mk.injEq] at he
        have hr : rc.1 = r := (cluster_uri_inj (Term.uri.inj he.1)).symm
        have hms : rc.2 = ms := by
          refine nodup_key_unique cl hnd ?_ hmem
          rw [← hr]
          exact hrc
        rw [hms] at hl2
        omega
      · simp only [Prod.mk.injEq] at he
        exact absurd (Term.uri.inj he.2.1) rdfType_ne_rdfsLabel
      · simp only [Prod.mk.injEq] at he
        exact absurd (Term.uri.inj he.2.1) rdfType_ne_sameAs
  · intro g cl r ms s v hmem hlen hm
    have h : (Term.uri (mention_uri none s v), Term.uri sameAsUri, Term.uri (cluster_uri r))
        ∈ link_clusters g cl none :=
      mem_link_clusters.mpr
        (Or.inr ⟨(r, ms), hmem, mem_clusterTriples.mpr
          ⟨hlen, Or.inr (Or.inr ⟨(s, v), hm, rfl⟩)⟩⟩)
    rw [← mention_uri_none s v]
    exact h

/-- C5 witness: concrete instances of all three parts. -/
theorem C5_witness :
    ((Term.uri (cluster_uri "r"), Term.uri rdfTypeUri, Term.uri clusterClassUri)
        ∈ link_clusters (∅ : Graph) [("r", [(0, "ghost"), (1, "w")])] (some "a1")
      ∧ (Term.uri (cluster_uri "r"), Term.uri rdfsLabelUri, Term.lit ("Cluster " ++ "r"))
        ∈ link_clusters (∅ : Graph) [("r", [(0, "ghost"), (1, "w")])] (some "a1"))
    ∧ (Term.uri (cluster_uri "solo"), Term.uri rdfTypeUri, Term.uri clusterClassUri)
        ∉ link_clusters (∅ : Graph) [("solo", [(0, "x")])] (some "a1")
    ∧ (Term.uri ("http://amr.isi.edu/amr_data/None.sent" ++ toString (0 + 1) ++ "#" ++ "x"),
        Term.uri sameAsUri, Term.uri (cluster_uri "r"))
        ∈ link_clusters (∅ : Graph) [("r", [(0, "x"), (1, "y")])] none :=
  ⟨C5_linker_totality.1 ∅ [("r", [(0, "ghost"), (1, "w")])] (some "a1") "r"
      [(0, "ghost"), (1, "w")] (by decide) (by decide),
    C5_linker_totality.2.1 ∅ [("solo", [(0, "x")])] (some "a1") "solo" [(0, "x")]
      (by decide) (by decide) (by decide) (by decide),
    C5_linker_totality.2.2 ∅ [("r", [(0, "x"), (1, "y")])] "r" [(0, "x"), (1, "y")] 0 "x"
      (by decide) (by decide) (by decide)⟩

/-- C1: for every cluster with at least 2 mentions, the linked graph
contains the cluster node with its `rdf:type cluster:Cluster` triple and
its `rdfs:label "Cluster <relation_key>"` triple; that node is the unique
subject carrying both; every subject typed `cluster:Cluster` is the node
of some at-least-2-mention cluster; there is one `cluster:sameAs` edge
from each mention node to the cluster node and no other `sameAs` edge
into it; no `sameAs` edge leaves the cluster node (the edge is not
symmetric); and a cluster with fewer than 2 mentions contributes zero
`sameAs` edges. The starting graph is assumed free of the overlay
vocabulary (no `sameAs` or `rdfs:label` predicates, nothing typed
`cluster:Cluster`), and the cluster keys are distinct (dict keys). -/
theorem C1_cluster_overlay_shape (g : Graph)
    (cl : List (String × List (Nat × String))) (ns : Option String)
    (hnd : (cl.map Prod.fst).Nodup)
    (hgS : ∀ t ∈ g, t.2.1 ≠ Term.uri sameAsUri)
    (hgT : ∀ t ∈ g, ¬(t.2.1 = Term.uri rdfTypeUri ∧ t.2.2 = Term.uri clusterClassUri))
    (hgL : ∀ t ∈ g, t.2.1 ≠ Term.uri rdfsLabelUri)
    (r : String) (ms : List (Nat × String)) (hmem : (r, ms) ∈ cl) :
    (1 < ms.length →
      (Term.uri (cluster_uri r), Term.uri rdfTypeUri, Term.uri clusterClassUri)
          ∈ link_clusters g cl ns
      ∧ (Term.uri (cluster_uri r), Term.uri rdfsLabelUri, Term.lit ("Cluster " ++ r))
          ∈ link_clusters g cl ns
      ∧ (∀ s : Term,
            (s, Term.uri rdfTypeUri, Term.uri clusterClassUri) ∈ link_clusters g cl ns →
            ∃ r2 ms2, (r2, ms2) ∈ cl ∧ 1 < ms2.length ∧ s = Term.uri (cluster_uri r2))
      ∧ (∀ s : Term,
            (s, Term.uri rdfTypeUri, Term.uri clusterClassUri) ∈ link_clusters g cl ns →
            (s, Term.uri rdfsLabelUri, Term.lit ("Cluster " ++ r)) ∈ link_clusters g cl ns →
            s = Term.uri (cluster_uri r))
      ∧ (∀ m ∈ ms,
            (Term.uri (mention_uri ns m.1 m.2), Term.uri sameAsUri, Term.uri (cluster_uri r))
              ∈ link_clusters g cl ns)
      ∧ (∀ s : Term,
            (s, Term.uri sameAsUri, Term.uri (cluster_uri r)) ∈ link_clusters g cl ns →
            ∃ m ∈ ms, s = Term.uri (mention_uri ns m.1 m.2))
      ∧ (∀ o : Term,
            (Term.uri (cluster_uri r), Term.uri sameAsUri, o) ∉ link_clusters g cl ns))
    ∧ (ms.length < 2 →
        ∀ s : Term,
          (s, Term.uri sameAsUri, Term.uri (cluster_uri r)) ∉ link_clusters g cl ns) := by
  constructor
  · intro hlen
    refine ⟨?_, ?_, ?_, ?_, ?_, ?_, ?_⟩
    · exact mem_link_clusters.mpr
        (Or.inr ⟨(r, ms), hmem, mem_clusterTriples.mpr ⟨hlen, Or.inl rfl⟩⟩)
    · exact mem_link_clusters.mpr
        (Or.inr ⟨(r, ms), hmem, mem_clusterTriples.mpr ⟨hlen, Or.inr (Or.inl rfl)⟩⟩)
    · intro s h1
      rcases mem_link_clusters.mp h1 with hin | ⟨rc, hrc, hct⟩
      · exact absurd ⟨rfl, rfl⟩ (hgT _ hin)
      · rw [mem_clusterTriples] at hct
        obtain ⟨hl2, hcase⟩ := hct
        rcases hcase with he | he | ⟨m, hm, he⟩
        · simp only [Prod.mk.injEq] at he
          exact ⟨rc.1, rc.2, hrc, hl2, he.1⟩
        · simp only [Prod.mk.injEq] at he
          exact absurd (Term.uri.inj he.2.1) rdfType_ne_rdfsLabel
        · simp only [Prod.mk.injEq] at he
          exact absurd (Term.uri.inj he.2.1) rdfType_ne_sameAs
    · intro s h1 h2
      rcases mem_link_clusters.mp h2 with hin | ⟨rc, hrc, hct⟩
      · exact absurd rfl (hgL _ hin)
      · rw [mem_clusterTriples] at hct
        obtain ⟨hl2, hcase⟩ := hct
        rcases hcase with he | he | ⟨m, hm, he⟩
        · simp only [Prod.mk.injEq] at he
          exact absurd (Term.uri.inj he.2.1) (Ne.symm rdfType_ne_rdfsLabel)
        · simp only [Prod.mk.injEq] at he
          have hr : rc.1 = r := (cluster_label_inj (Term.lit.inj he.2.2)).symm
          rw [he.1, hr]
        · simp only [Prod.mk.injEq] at he
          exact absurd (Term.uri.inj he.2.1) rdfsLabel_ne_sameAs
    · intro m hm
      exact mem_link_clusters.mpr
        (Or.inr ⟨(r, ms), hmem, mem_clusterTriples.mpr
          ⟨hlen, Or.inr (Or.inr ⟨m, hm, rfl⟩)⟩⟩)
    · intro s h1
      rcases mem_link_clusters.mp h1 with hin | ⟨rc, hrc, hct⟩
      · exact absurd rfl (hgS _ hin)
      · rw [mem_clusterTriples] at hct
        obtain ⟨hl2, hcase⟩ := hct
        rcases hcase with he | he | ⟨m, hm, he⟩
        · simp only [Prod.mk.injEq] at he
          exact absurd (Term.uri.inj he.2.1) (Ne.symm rdfType_ne_sameAs)
        · simp only [Prod.mk.injEq] at he
          exact absurd (Term.uri.inj he.2.1) (Ne.symm rdfsLabel_ne_sameAs)
        · simp only [Prod.mk.injEq] at he
          have hr : rc.1 = r := (cluster_uri_inj (Term.uri.inj he.2.2)).symm
          have hms : rc.2 = ms := by
            refine nodup_key_unique cl hnd ?_ hmem
            rw [← hr]
            exact hrc
          exact ⟨m, hms ▸ hm, he.1⟩
    · intro o h1
      rcases mem_link_clusters.mp h1 with hin | ⟨rc, hrc, hct⟩
      · exact absurd rfl (hgS _ hin)
      · rw [mem_clusterTriples] at hct
        obtain ⟨hl2, hcase⟩ := hct
        rcases hcase with he | he | ⟨m, hm, he⟩
        · simp only [Prod.mk.injEq] at he
          exact absurd (Term.uri.inj he.2.1) (Ne.symm rdfType_ne_sameAs)
        · simp only [Prod.mk.injEq] at he
          exact absurd (Term.uri.inj he.2.1) (Ne.symm rdfsLabel_ne_sameAs)
        · simp only [Prod.mk.injEq] at he
          exact absurd (Term.uri.inj he.1) (Ne.symm (mention_ne_cluster ns m.1 m.2 r))
  · intro hsmall s h1
    rcases mem_link_clusters.mp h1 with hin | ⟨rc, hrc, hct⟩
    · exact absurd rfl (hgS _ hin)
    · rw [mem_clusterTriples] at hct
      obtain ⟨hl2, hcase⟩ := hct
      rcases hcase with he | he | ⟨m, hm, he⟩
      · simp only [Prod.mk.injEq] at he
        exact absurd (Term.uri.inj he.2.1) (Ne.symm rdfType_ne_sameAs)
      · simp only [Prod.mk.injEq] at he
        exact absurd (Term.uri.inj he.2.1) (Ne.symm rdfsLabel_ne_sameAs)
      · simp only [Prod.mk.injEq] at he
        have hr : rc.1 = r := (cluster_uri_inj (Term.uri.inj he.2.2)).symm
        have hms : rc.2 = ms := by
          refine nodup_key_unique cl hnd ?_ hmem
          rw [← hr]
          exact hrc
        rw [hms] at hl2
        omega

/-- C1 witness: concrete two-cluster instance with all hypotheses
discharged. -/
theorem C1_witness :
    (1 < [((0 : Nat), "x"), (2, "y")].length →
      (Term.uri (cluster_uri "r1"), Term.uri rdfTypeUri, Term.uri clusterClassUri)
          ∈ link_clusters (∅ : Graph)
              [("r1", [(0, "x"), (2, "y")]), ("r2", [(1, "z")])] (some "a1")
      ∧ (Term.uri (cluster_uri "r1"), Term.uri rdfsLabelUri, Term.lit ("Cluster " ++ "r1"))
          ∈ link_clusters (∅ : Graph)
              [("r1", [(0, "x"), (2, "y")]), ("r2", [(1, "z")])] (some "a1")
      ∧ (∀ s : Term,
            (s, Term.uri rdfTypeUri, Term.uri clusterClassUri)
              ∈ link_clusters (∅ : Graph)
                  [("r1", [(0, "x"), (2, "y")]), ("r2", [(1, "z")])] (some "a1") →
            ∃ r2 ms2, (r2, ms2) ∈ [("r1", [((0 : Nat), "x"), (2, "y")]), ("r2", [(1, "z")])]
              ∧ 1 < ms2.length ∧ s = Term.uri (cluster_uri r2))
      ∧ (∀ s : Term,
            (s, Term.uri rdfTypeUri, Term.uri clusterClassUri)
              ∈ link_clusters (∅ : Graph)
                  [("r1", [(0, "x"), (2, "y")]), ("r2", [(1, "z")])] (some "a1") →
            (s, Term.uri rdfsLabelUri, Term.lit ("Cluster " ++ "r1"))
              ∈ link_clusters (∅ : Graph)
                  [("r1", [(0, "x"), (2, "y")]), ("r2", [(1, "z")])] (some "a1") →
            s = Term.uri (cluster_uri "r1"))
      ∧ (∀ m ∈ [((0 : Nat), "x"), (2, "y")],
            (Term.uri (mention_uri (some "a1") m.1 m.2), Term.uri sameAsUri,
              Term.uri (cluster_uri "r1"))
              ∈ link_clusters (∅ : Graph)
                  [("r1", [(0, "x"), (2, "y")]), ("r2", [(1, "z")])] (some "a1"))
      ∧ (∀ s : Term,
            (s, Term.uri sameAsUri, Term.uri (cluster_uri "r1"))
              ∈ link_clusters (∅ : Graph)
                  [("r1", [(0, "x"), (2, "y")]), ("r2", [(1, "z")])] (some "a1") →
            ∃ m ∈ [((0 : Nat), "x"), (2, "y")],
              s = Term.uri (mention_uri (some "a1") m.1 m.2))
      ∧ (∀ o : Term,
            (Term.uri (cluster_uri "r1"), Term.uri sameAsUri, o)
              ∉ link_clusters (∅ : Graph)
                  [("r1", [(0, "x"), (2, "y")]), ("r2", [(1, "z")])] (some "a1")))
    ∧ ([((0 : Nat), "x"), (2, "y")].length < 2 →
        ∀ s : Term,
          (s, Term.uri sameAsUri, Term.uri (cluster_uri "r1"))
            ∉ link_clusters (∅ : Graph)
                [("r1", [(0, "x"), (2, "y")]), ("r2", [(1, "z")])] (some "a1")) :=
  C1_cluster_overlay_shape ∅ [("r1", [(0, "x"), (2, "y")]), ("r2", [(1, "z")])] (some "a1")
    (by decide) (by decide) (by decide) (by decide) "r1" [(0, "x"), (2, "y")] (by decide)

/-- C10 witness: concrete two-sentence document. -/
theorem C10_witness :
    ((all_sentences_to_rdf convDemo
        { title := "t", paragraph := "p", paragraph_amr := "a"
          sentences := [("s1", "g1", "m1"), ("s2", "g2", "m2")]
          sentences_rdf := []
          coreference_clusters := [] }).sentences_rdf.length = 2
      ∧ ∀ i, i < 2 →
          (all_sentences_to_rdf convDemo
            { title := "t", paragraph := "p", paragraph_amr := "a"
              sentences := [("s1", "g1", "m1"), ("s2", "g2", "m2")]
              sentences_rdf := []
              coreference_clusters := [] }).sentences_rdf.getD i ""
          = convDemo (([("s1", "g1", "m1"), ("s2", "g2", "m2")].getD i ("", "", "")).2.2))
    ∧ ∀ (d : Document) (j : Nat),
        (convert_amr_to_rdf convDemo d j).sentences_rdf.length
          = d.sentences_rdf.length + 1 :=
  C10_positional_alignment convDemo
    { title := "t", paragraph := "p", paragraph_amr := "a"
      sentences := [("s1", "g1", "m1"), ("s2", "g2", "m2")]
      sentences_rdf := []
      coreference_clusters := [] } rfl
